import Mathlib

/-!
Shallow embedding of the echo-dev session-coordination protocol.

Agent side: the Chrome extension background script
(`echo-extension-chrome/src/content/index.ts`, `connect()` and its
`ws.onopen` / `ws.onmessage` / `ws.onclose` handlers, and the
`chrome.tabs.onActivated` / `chrome.tabs.onRemoved` listeners registered in
`ws.onopen`).

Control side: the Electron main process (WebSocket server), holding the
`clients` array, its `wss.on("connection")` / `ws.on("close")` handlers and
the `ipcMain.handle('start'|'stop')` broadcast loops.
-/

namespace EchoDev

/-- The two session commands of the protocol. -/
inductive Command
  | RECORDING
  | IDLE
deriving DecidableEq, Repr

/-- The token decoding performed by `ws.onmessage`:
`if (e.data === 'start') recording = true else recording = false`. -/
def parseCommand (s : String) : Command :=
  if s = "start" then Command.RECORDING else Command.IDLE

/-- A token the wire protocol recognizes (per the spec: `"start"` and `"stop"`). -/
def recognizedToken (s : String) : Bool :=
  s = "start" || s = "stop"

/-- Lifecycle state of the agent's WebSocket transport link. -/
inductive LinkState
  | CONNECTING
  | OPEN
  | CLOSED
deriving DecidableEq, Repr

/-- Set `tabStates[t] = v` (JS object assignment: keyed map update). -/
def setTab (ts : List (Nat × String)) (t : Nat) (v : String) : List (Nat × String) :=
  (t, v) :: ts.filter (fun p => p.1 ≠ t)

/-- `delete tabStates[t]` (JS delete: idempotent removal by key). -/
def delTab (ts : List (Nat × String)) (t : Nat) : List (Nat × String) :=
  ts.filter (fun p => p.1 ≠ t)

/-- The state owned by one invocation of `connect()`: the link, the
closure-local `recording` flag and `tabStates` object, plus the (global)
badge text as last set through `chrome.action.setBadgeText`. -/
structure ConnState where
  link : LinkState
  recording : Bool
  tabStates : List (Nat × String)
  badge : String
deriving DecidableEq, Repr

/-- State right after `connect()` runs: socket connecting, `recording = false`,
`tabStates = {}`; the badge keeps whatever text `b` it had. -/
def connInit (b : String) : ConnState :=
  { link := LinkState.CONNECTING, recording := false, tabStates := [], badge := b }

/-- Events delivered to one connection's handlers by the single event loop.
Tab ids use `0` for the JS-falsy id (`if (!tabId) return`). -/
inductive Event
  | wsOpen
  | wsMessage (data : String)
  | tabActivated (tabId : Nat)
  | tabRemoved (tabId : Nat)
  | wsClose
deriving DecidableEq, Repr

/-- Observable instructions issued by the handlers. -/
inductive Action
  | queryTabs
  | sendMessage (tabId : Nat) (act : String)
  | setBadge (text : String)
  | scheduleReconnect
deriving DecidableEq, Repr

/-- Environment of a step: the result of
`chrome.tabs.query({active: true, currentWindow: true})` and a delivery
oracle telling which `chrome.tabs.sendMessage(tabId, {action})` calls fail
(rejected promise: tab navigated away, no content script). -/
structure Env where
  focusedTabs : List Nat
  sendFails : Nat → String → Bool

def noFail : Nat → String → Bool := fun _ _ => false

def emptyEnv : Env := { focusedTabs := [], sendFails := noFail }

/-- The `chrome.tabs.query` callback body in `ws.onmessage`: loop over the
queried tabs; a falsy `tabId` exits the whole callback (`return`); the
four `sendMessage` calls are not awaited, so every listed send is attempted
regardless of delivery outcome. -/
def dispatchTabs (r : Bool) : List Nat → List Action
  | [] => []
  | t :: rest =>
      if t = 0 then []
      else
        (if r then
          [Action.sendMessage t "activateInspector",
           Action.sendMessage t "activateNotification"]
        else
          [Action.sendMessage t "deactivateInspector",
           Action.sendMessage t "deactivateNotification"]) ++ dispatchTabs r rest

/-- The body of the `chrome.tabs.onActivated` listener after the
`tabStates` write: the two `sendMessage` calls are awaited with no
try/catch, so a rejection of the first aborts the handler and the second
message of the pair is never attempted. -/
def activatedSends (env : Env) (r : Bool) (t : Nat) : List Action :=
  if r then
    if env.sendFails t "activateInspector" then
      [Action.sendMessage t "activateInspector"]
    else
      [Action.sendMessage t "activateInspector",
       Action.sendMessage t "activateNotification"]
  else
    if env.sendFails t "deactivateInspector" then
      [Action.sendMessage t "deactivateInspector"]
    else
      [Action.sendMessage t "deactivateInspector",
       Action.sendMessage t "deactivateNotification"]

/-- One event processed by this connection's handlers, returning the new
state and the list of instructions attempted.

- `wsOpen`: badge `ON`; (listener registration is modelled globally below).
- `wsMessage d`: `recording = (d === 'start')`, then one
  `chrome.tabs.query` reconciliation over the focused tabs.
- `tabActivated` / `tabRemoved`: their listeners exist only once `wsOpen`
  ran (they are registered inside `ws.onopen`), and are never removed, so
  they also fire after `wsClose`; hence the guard `link ≠ CONNECTING`.
  `onActivated` writes `tabStates[tabId] = 'ON'` and dispatches;
  `onRemoved` deletes the record and sets the badge to `OFF`.
- `wsClose`: badge `OFF` and a reconnect timer. -/
def stepOut (env : Env) (s : ConnState) : Event → ConnState × List Action
  | Event.wsOpen =>
      ({ s with link := LinkState.OPEN, badge := "ON" }, [Action.setBadge "ON"])
  | Event.wsMessage d =>
      ({ s with recording := d = "start" },
        Action.queryTabs :: dispatchTabs (d = "start") env.focusedTabs)
  | Event.tabActivated t =>
      if s.link = LinkState.CONNECTING then (s, [])
      else if t = 0 then (s, [])
      else ({ s with tabStates := setTab s.tabStates t "ON" },
            activatedSends env s.recording t)
  | Event.tabRemoved t =>
      if s.link = LinkState.CONNECTING then (s, [])
      else ({ s with tabStates := delTab s.tabStates t, badge := "OFF" },
            [Action.setBadge "OFF"])
  | Event.wsClose =>
      ({ s with link := LinkState.CLOSED, badge := "OFF" },
        [Action.setBadge "OFF", Action.scheduleReconnect])

/-- The state transition alone (it does not depend on the environment,
which is proved as `stepOut_state_env_free`). -/
def step (s : ConnState) (e : Event) : ConnState :=
  (stepOut emptyEnv s e).1

/-- Process a sequence of events from a state. -/
def run (s : ConnState) (evs : List Event) : ConnState :=
  evs.foldl step s

/-- The Session command an agent state denotes. -/
def sessionOf (s : ConnState) : Command :=
  if s.recording then Command.RECORDING else Command.IDLE

/-- Tab ids whose record is `'ON'` (the ACTIVE activation state). -/
def activeTabs (s : ConnState) : List Nat :=
  (s.tabStates.filter (fun p => p.2 = "ON")).map (fun p => p.1)

/-!
Control side: the server's `clients` array (Broadcast Hub live set).
`closedIds` is ground truth kept by the model about which accepted sockets
have since closed; the code's own `ws.on("close")` handler only logs.
-/

/-- The Broadcast Hub: the `clients` array plus the set of ids of links
that have closed (tracked by the model, not by the code). -/
structure Hub where
  clients : List Nat
  closedIds : List Nat
deriving DecidableEq, Repr

/-- Hub events: a socket accepted by `wss.on("connection")`, or a socket's
close event firing `ws.on("close")`. -/
inductive HubEvent
  | connection (c : Nat)
  | clientClose (c : Nat)
deriving DecidableEq, Repr

/-- `connection` runs `clients.push(ws)`; the `close` handler runs
`console.log("the client has disconnected")` and nothing else, so the
`clients` array is left untouched. -/
def hubStep (h : Hub) : HubEvent → Hub
  | HubEvent.connection c => { clients := h.clients ++ [c], closedIds := h.closedIds }
  | HubEvent.clientClose c => { clients := h.clients, closedIds := h.closedIds ++ [c] }

def hubRun (h : Hub) (evs : List HubEvent) : Hub :=
  evs.foldl hubStep h

def hubInit : Hub := { clients := [], closedIds := [] }

/-- The ids of all sockets accepted over an event sequence, in order. -/
def connectionIds (evs : List HubEvent) : List Nat :=
  evs.filterMap (fun e => match e with
    | HubEvent.connection c => some c
    | _ => none)

/-- `ipcMain.handle('start'|'stop')`: `for (let i in clients) clients[i].send(cmd)` —
one send attempt per element of `clients`. A `ws` server-side socket's
`send` on a non-open peer reports the failure asynchronously (error event /
callback), never by a synchronous throw, so the loop always attempts every
client. -/
def broadcastTargets (h : Hub) (cmd : String) : List (Nat × String) :=
  h.clients.map (fun c => (c, cmd))

/-- The frames actually delivered: the attempts whose link does not fail. -/
def broadcastDelivered (fails : Nat → Bool) (h : Hub) (cmd : String) : List (Nat × String) :=
  (h.clients.filter (fun c => !(fails c))).map (fun c => (c, cmd))

/-!
Global agent model across reconnects. Each call of `connect()` creates a
fresh closure (`recording = false`); its `ws.onopen` registers one more
`chrome.tabs.onActivated` listener over that closure, and no handler ever
calls `removeListener`, so the listener list only grows. A single tab-focus
event runs every registered listener, each reading the `recording` flag of
the closure it captured.
-/

/-- Global agent state: `closures` holds, per successful connection open
(in order), that connection's `recording` flag; `listeners` holds the
closure indices of the registered `onActivated` listeners, in registration
order. -/
structure GlobalState where
  closures : List Bool
  listeners : List Nat
deriving DecidableEq, Repr

def gInit : GlobalState := { closures := [], listeners := [] }

/-- Global events: a `connect()` whose socket opens (fresh closure with
`recording = false`, plus one listener registration in `ws.onopen`); a
command frame arriving on connection `i`; a tab gaining focus; a
connection closing (`ws.onclose` removes no listener). -/
inductive GEvent
  | openConn
  | frame (i : Nat) (d : String)
  | focusTab (t : Nat)
  | closeConn (i : Nat)
deriving DecidableEq, Repr

def gStep (s : GlobalState) : GEvent → GlobalState
  | GEvent.openConn =>
      { closures := s.closures ++ [false], listeners := s.listeners ++ [s.closures.length] }
  | GEvent.frame i d => { closures := s.closures.set i (d = "start"), listeners := s.listeners }
  | GEvent.focusTab _ => s
  | GEvent.closeConn _ => s

def gRun (evs : List GEvent) : GlobalState :=
  evs.foldl gStep gInit

/-- What one tab-focus event does: each registered listener runs once, in
registration order, reading the `recording` flag of its own closure. -/
def focusRuns (s : GlobalState) : List Bool :=
  s.listeners.map (fun i => s.closures.getD i false)

/-- Number of successful connection opens in a global event sequence. -/
def countOpens (evs : List GEvent) : Nat :=
  evs.countP (fun e => match e with
    | GEvent.openConn => true
    | _ => false)

/-!
Claim-side definitions and theorems.
-/

/-- Session after `connect()` runs, the socket opens and a sequence of
frames is received on it. -/
def sessionAfter (frames : List String) : Command :=
  sessionOf (run (connInit "OFF") (Event.wsOpen :: frames.map Event.wsMessage))

/-- The spec's reading for C1: the `Command` of the last *recognized*
token (`"start"`/`"stop"`) of the sequence, if any. -/
def lastRecognizedCommand (frames : List String) : Option Command :=
  ((frames.filter recognizedToken).getLast?).map parseCommand

/-- What the code computes: the `Command` the last frame maps to
(`"start"` to RECORDING, anything else to IDLE); IDLE for no frames. -/
def lastFrameCommand (frames : List String) : Command :=
  ((frames.getLast?).map parseCommand).getD Command.IDLE

theorem recording_foldl_msgs (s : ConnState) (frames : List String) :
    (List.foldl step s (frames.map Event.wsMessage)).recording
      = frames.foldl (fun _ d => decide (d = "start")) s.recording := by
  induction frames generalizing s with
  | nil => rfl
  | cons a l ih =>
      simp only [List.map_cons, List.foldl_cons]
      rw [ih]
      rfl

theorem foldl_start_last (b : Bool) (frames : List String) :
    frames.foldl (fun _ d => decide (d = "start")) b
      = ((frames.getLast?).map (fun d => decide (d = "start"))).getD b := by
  induction frames generalizing b with
  | nil => rfl
  | cons a l ih =>
      cases l with
      | nil => rfl
      | cons a2 l2 =>
          rw [List.foldl_cons, ih]
          rw [List.getLast?_cons_cons]
          have hne : (a2 :: l2).getLast?.isSome := by
            rw [List.getLast?_isSome]
            simp
          obtain ⟨x, hx⟩ := Option.isSome_iff_exists.mp hne
          rw [hx]
          rfl

/-- C1 (counterexample): for the frame sequence `["start", "pause"]` the
last recognized token is `"start"` (Command RECORDING), but the agent ends
IDLE, because `ws.onmessage` maps every frame other than `"start"`
(recognized or not) to `recording = false`. -/
theorem C1_counterexample :
    lastRecognizedCommand ["start", "pause"] = some Command.RECORDING ∧
    sessionAfter ["start", "pause"] = Command.IDLE ∧
    Command.RECORDING ≠ Command.IDLE := by
  refine ⟨by rfl, by rfl, by decide⟩

/-- C1 (amended): for every finite frame sequence, the Session after
processing equals the Command the *last frame* maps to (`"start"` to
RECORDING, any other payload to IDLE), independent of how many frames
arrived or how many were duplicates. -/
theorem C1_last_frame_wins (frames : List String) :
    sessionAfter frames = lastFrameCommand frames := by
  have h : (run (connInit "OFF") (Event.wsOpen :: frames.map Event.wsMessage)).recording
      = ((frames.getLast?).map (fun d => decide (d = "start"))).getD false := by
    show (List.foldl step (step (connInit "OFF") Event.wsOpen)
        (frames.map Event.wsMessage)).recording = _
    rw [recording_foldl_msgs]
    have hop : (step (connInit "OFF") Event.wsOpen).recording = false := rfl
    rw [hop, foldl_start_last]
  unfold sessionAfter lastFrameCommand sessionOf parseCommand
  rw [h]
  cases hf : frames.getLast? with
  | none => rfl
  | some d =>
      by_cases hd : d = "start" <;> simp [hd]

/-- `true` exactly on command-frame events. -/
def isMessageEvent : Event → Bool
  | Event.wsMessage _ => true
  | _ => false

theorem step_recording_nonmsg (s : ConnState) (e : Event)
    (h : isMessageEvent e = false) : (step s e).recording = s.recording := by
  cases e with
  | wsOpen => rfl
  | wsMessage d => simp [isMessageEvent] at h
  | tabActivated t =>
      by_cases h1 : s.link = LinkState.CONNECTING <;> by_cases h2 : t = 0 <;>
        simp [step, stepOut, h1, h2]
  | tabRemoved t =>
      by_cases h1 : s.link = LinkState.CONNECTING <;> simp [step, stepOut, h1]
  | wsClose => rfl

theorem run_recording_nonmsg (s : ConnState) (evs : List Event)
    (h : ∀ e ∈ evs, isMessageEvent e = false) :
    (run s evs).recording = s.recording := by
  induction evs generalizing s with
  | nil => rfl
  | cons a l ih =>
      have ha : isMessageEvent a = false := h a (List.mem_cons_self a l)
      have hl : ∀ e ∈ l, isMessageEvent e = false := fun e he => h e (List.mem_cons_of_mem a he)
      show (run (step s a) l).recording = s.recording
      rw [ih (step s a) hl, step_recording_nonmsg s a ha]

/-- C4: every invocation of `connect()` (including every reconnect) starts
a fresh closure with `recording = false`, and the Session stays IDLE under
any sequence of events on that connection that contains no command frame. -/
theorem C4_fresh_connection_idle (b : String) (evs : List Event)
    (h : ∀ e ∈ evs, isMessageEvent e = false) :
    sessionOf (run (connInit b) evs) = Command.IDLE := by
  unfold sessionOf
  rw [run_recording_nonmsg (connInit b) evs h]
  rfl

/-- Witness for C4: open, a tab focus and a close leave a fresh
connection IDLE. -/
theorem C4_fresh_connection_idle_spot :
    sessionOf (run (connInit "OFF")
      [Event.wsOpen, Event.tabActivated 1, Event.wsClose]) = Command.IDLE :=
  C4_fresh_connection_idle "OFF"
    [Event.wsOpen, Event.tabActivated 1, Event.wsClose] (by decide)

/-- C6: a frame whose payload is neither `"start"` nor `"stop"` falls into
the `else` branch of `ws.onmessage`, so the Session becomes IDLE; the
handler is a total function, so no error is raised. -/
theorem C6_unrecognized_idle (env : Env) (s : ConnState) (d : String)
    (h : recognizedToken d = false) :
    sessionOf (stepOut env s (Event.wsMessage d)).1 = Command.IDLE := by
  have hd : ¬(d = "start") := by
    intro hds
    rw [hds] at h
    simp [recognizedToken] at h
  simp [stepOut, sessionOf, hd]

/-- Witness for C6: the frame `"pause"` leaves the Session IDLE. -/
theorem C6_unrecognized_idle_spot :
    sessionOf (stepOut emptyEnv (connInit "OFF") (Event.wsMessage "pause")).1
      = Command.IDLE :=
  C6_unrecognized_idle emptyEnv (connInit "OFF") "pause" (by decide)

/-- A reachable state: link open, Session IDLE, no tab records. -/
def sOpenIdle : ConnState :=
  { link := LinkState.OPEN, recording := false, tabStates := [], badge := "ON" }

/-- A reachable state: link open, Session RECORDING, no tab records. -/
def sOpenRec : ConnState :=
  { link := LinkState.OPEN, recording := true, tabStates := [], badge := "ON" }

/-- C2 (counterexample): focusing tab 1 while the Session is IDLE leaves a
record with state `'ON'` (ACTIVE), because the `onActivated` listener runs
`tabStates[tabId] = 'ON'` before and regardless of the `recording` check;
the claim says no record is ACTIVE while IDLE. -/
theorem C2_counterexample :
    sessionOf (run (connInit "OFF") [Event.wsOpen, Event.tabActivated 1]) = Command.IDLE ∧
    activeTabs (run (connInit "OFF") [Event.wsOpen, Event.tabActivated 1]) = [1] := by
  refine ⟨by rfl, by rfl⟩

/-- C2 (amended): a record created or updated on a tab-activated event
(nonzero id, listener registered) gets activation state `'ON'`
unconditionally, whatever the current Session command is. -/
theorem C2_activation_unconditional (s : ConnState) (t : Nat)
    (h1 : s.link ≠ LinkState.CONNECTING) (h2 : t ≠ 0) :
    ((step s (Event.tabActivated t)).tabStates).lookup t = some "ON" := by
  simp [step, stepOut, h1, h2, setTab, List.lookup]

/-- Witness for C2 (amended): tab 1 focused while IDLE gets record `'ON'`. -/
theorem C2_activation_unconditional_spot :
    ((step sOpenIdle (Event.tabActivated 1)).tabStates).lookup 1 = some "ON" :=
  C2_activation_unconditional sOpenIdle 1 (by decide) (by decide)

/-- How many times a handler invoked the reconciliation step
(`chrome.tabs.query` over the focused tab). -/
def reconcileCount (acts : List Action) : Nat :=
  acts.countP (fun a => match a with
    | Action.queryTabs => true
    | _ => false)

/-- An environment whose focused-tab query returns tab 7. -/
def envTab7 : Env := { focusedTabs := [7], sendFails := noFail }

/-- C5 (counterexample): with the Session already RECORDING, the frame
`"start"` (same command) still triggers one reconciliation and re-sends
both activation messages to the focused tab; the claim says a matching
frame triggers none. -/
theorem C5_counterexample :
    sessionOf sOpenRec = Command.RECORDING ∧
    parseCommand "start" = Command.RECORDING ∧
    (stepOut envTab7 sOpenRec (Event.wsMessage "start")).2
      = [Action.queryTabs,
         Action.sendMessage 7 "activateInspector",
         Action.sendMessage 7 "activateNotification"] ∧
    reconcileCount (stepOut envTab7 sOpenRec (Event.wsMessage "start")).2 ≠ 0 := by
  refine ⟨by rfl, by rfl, by rfl, by decide⟩

/-- C5 (amended): `ws.onmessage` invokes the reconciliation step exactly
once per received frame, whether or not the frame's command differs from
the current Session command. -/
theorem C5_reconcile_every_frame (env : Env) (s : ConnState) (d : String) :
    reconcileCount (stepOut env s (Event.wsMessage d)).2 = 1 := by
  show reconcileCount
    (Action.queryTabs :: dispatchTabs (decide (d = "start")) env.focusedTabs) = 1
  unfold reconcileCount
  rw [List.countP_cons]
  have hq : ∀ (r : Bool) (ts : List Nat),
      (dispatchTabs r ts).countP (fun a => match a with
        | Action.queryTabs => true
        | _ => false) = 0 := by
    intro r ts
    induction ts with
    | nil => rfl
    | cons t rest ih =>
        simp only [dispatchTabs]
        by_cases ht : t = 0
        · rw [if_pos ht]
          rfl
        · rw [if_neg ht, List.countP_append, ih]
          cases r <;> rfl
  rw [hq]
  rfl

/-- Delivery fails exactly for the `activateInspector` message to tab 1. -/
def failInspector1 : Nat → String → Bool :=
  fun t a => t = 1 && a = "activateInspector"

def envFail1 : Env := { focusedTabs := [], sendFails := failInspector1 }

/-- C8 (counterexample): in the `onActivated` handler the two sends are
awaited with no try/catch, so when the `activateInspector` delivery to the
focused tab fails, the `activateNotification` message of the same
reconciliation is never attempted; the claim says a failure never prevents
the remaining instructions of the same reconciliation. -/
theorem C8_counterexample :
    (stepOut envFail1 sOpenRec (Event.tabActivated 1)).2
      = [Action.sendMessage 1 "activateInspector"] ∧
    Action.sendMessage 1 "activateNotification" ∉
      (stepOut envFail1 sOpenRec (Event.tabActivated 1)).2 := by
  refine ⟨by rfl, by decide⟩

/-- C8 (amended): a delivery failure never crashes the agent and never
affects the resulting state — the transition is independent of the
delivery oracle (and of the query result), so all subsequent events are
processed exactly as without the failure; and in the command-frame
dispatch, whose sends are not awaited, the attempted sends are independent
of the delivery oracle too. Only the second awaited send of the
`onActivated` handler can be skipped (see the counterexample). -/
theorem C8_failure_isolated (envA envB : Env) (s : ConnState) (e : Event) (d : String)
    (hfoc : envA.focusedTabs = envB.focusedTabs) :
    (stepOut envA s e).1 = (stepOut envB s e).1 ∧
    (stepOut envA s (Event.wsMessage d)).2 = (stepOut envB s (Event.wsMessage d)).2 := by
  constructor
  · cases e with
    | wsOpen => rfl
    | wsMessage d2 => rfl
    | tabActivated t =>
        by_cases h1 : s.link = LinkState.CONNECTING <;> by_cases h2 : t = 0 <;>
          simp [stepOut, h1, h2]
    | tabRemoved t =>
        by_cases h1 : s.link = LinkState.CONNECTING <;> simp [stepOut, h1]
    | wsClose => rfl
  · show Action.queryTabs :: dispatchTabs (decide (d = "start")) envA.focusedTabs
      = Action.queryTabs :: dispatchTabs (decide (d = "start")) envB.focusedTabs
    rw [hfoc]

/-- Witness for C8 (amended): the failing delivery of `envFail1` yields the
same state and the same command-frame sends as the failure-free
environment. -/
theorem C8_failure_isolated_spot :
    (stepOut envFail1 sOpenRec (Event.tabActivated 1)).1
      = (stepOut emptyEnv sOpenRec (Event.tabActivated 1)).1 ∧
    (stepOut envFail1 sOpenRec (Event.wsMessage "start")).2
      = (stepOut emptyEnv sOpenRec (Event.wsMessage "start")).2 :=
  C8_failure_isolated envFail1 emptyEnv sOpenRec (Event.tabActivated 1) "start" rfl

/-- C9 (counterexample): closing any tab while the link is OPEN sets the
badge to `"OFF"`, because the `onRemoved` listener calls
`chrome.action.setBadgeText({text: 'OFF'})`; the claim says no event other
than a connection close changes the badge away from `"ON"` while OPEN. -/
theorem C9_counterexample :
    (run (connInit "OFF") [Event.wsOpen, Event.tabRemoved 5]).link = LinkState.OPEN ∧
    (run (connInit "OFF") [Event.wsOpen, Event.tabRemoved 5]).badge = "OFF" := by
  refine ⟨by rfl, by rfl⟩

/-- C9 (amended): the badge is set to `"ON"` on connection open and to
`"OFF"` on connection close, but additionally every tab-removed event
(once the listener is registered) forces it to `"OFF"` even while the link
stays OPEN; command frames and tab activations leave it unchanged. -/
theorem C9_badge_transitions (s : ConnState) (t : Nat) (d : String) :
    (step s Event.wsOpen).badge = "ON" ∧
    (step s Event.wsClose).badge = "OFF" ∧
    (step s (Event.tabRemoved t)).badge
      = (if s.link = LinkState.CONNECTING then s.badge else "OFF") ∧
    (step s (Event.wsMessage d)).badge = s.badge ∧
    (step s (Event.tabActivated t)).badge = s.badge := by
  refine ⟨rfl, rfl, ?_, rfl, ?_⟩
  · by_cases h1 : s.link = LinkState.CONNECTING <;> simp [step, stepOut, h1]
  · by_cases h1 : s.link = LinkState.CONNECTING <;> by_cases h2 : t = 0 <;>
      simp [step, stepOut, h1, h2]

/-- C3 (counterexample): after a link connects and then closes, it is
still in the `clients` array and the next broadcast still targets it; the
claim says the close handler removes it so broadcasts iterate only over
non-closed links. -/
theorem C3_counterexample :
    (hubRun hubInit [HubEvent.connection 1, HubEvent.clientClose 1]).clients = [1] ∧
    1 ∈ (hubRun hubInit [HubEvent.connection 1, HubEvent.clientClose 1]).closedIds ∧
    broadcastTargets (hubRun hubInit [HubEvent.connection 1, HubEvent.clientClose 1]) "start"
      = [(1, "start")] := by
  refine ⟨by rfl, by decide, by rfl⟩

theorem hubRun_clients (h : Hub) (evs : List HubEvent) :
    (hubRun h evs).clients = h.clients ++ connectionIds evs := by
  induction evs generalizing h with
  | nil => simp [hubRun, connectionIds]
  | cons a l ih =>
      cases a with
      | connection c =>
          show (hubRun (hubStep h (HubEvent.connection c)) l).clients = _
          rw [ih]
          simp [hubStep, connectionIds, List.filterMap_cons]
      | clientClose c =>
          show (hubRun (hubStep h (HubEvent.clientClose c)) l).clients = _
          rw [ih]
          simp [hubStep, connectionIds, List.filterMap_cons]

/-- C3 (amended): the `close` handler never unregisters a link: after any
event sequence the `clients` array holds every link ever accepted, in
acceptance order, and a broadcast targets all of them, closed or not. -/
theorem C3_close_never_unregisters (evs : List HubEvent) (cmd : String) :
    (hubRun hubInit evs).clients = connectionIds evs ∧
    broadcastTargets (hubRun hubInit evs) cmd
      = (connectionIds evs).map (fun c => (c, cmd)) := by
  have h := hubRun_clients hubInit evs
  have h0 : (hubRun hubInit evs).clients = connectionIds evs := by
    rw [h]
    rfl
  exact ⟨h0, by rw [broadcastTargets, h0]⟩

/-- C7: `ipcMain.handle('start'|'stop')` loops over the `clients` array
and calls `send` once per element, so with distinct clients each receives
the command exactly once; and since a server-side `ws` socket's `send`
reports delivery failures asynchronously rather than throwing, any client
whose own link does not fail receives the frame no matter which other
links fail. -/
theorem C7_broadcast_fanout (h : Hub) (cmd : String) (c : Nat) (fails : Nat → Bool)
    (hnd : h.clients.Nodup) (hc : c ∈ h.clients) (hcf : fails c = false) :
    (broadcastTargets h cmd).count (c, cmd) = 1 ∧
    (c, cmd) ∈ broadcastDelivered fails h cmd := by
  constructor
  · unfold broadcastTargets
    have hcp : ∀ (l : List Nat),
        ((l.map (fun x => (x, cmd))).count (c, cmd)) = l.count c := by
      intro l
      induction l with
      | nil => rfl
      | cons a t ih => simp [List.count_cons, ih, Prod.mk.injEq]
    rw [hcp h.clients]
    exact List.count_eq_one_of_mem hnd hc
  · unfold broadcastDelivered
    refine List.mem_map.mpr ⟨c, ?_, rfl⟩
    exact List.mem_filter.mpr ⟨hc, by simp [hcf]⟩

/-- A hub with three live links. -/
def hub3 : Hub := { clients := [1, 2, 3], closedIds := [] }

/-- Delivery fails exactly on link 2. -/
def fails2 : Nat → Bool := fun c => c = 2

/-- Witness for C7: with links 1, 2, 3 and link 2 failing, link 1 is
targeted exactly once and still receives the broadcast. -/
theorem C7_broadcast_fanout_spot :
    (broadcastTargets hub3 "start").count (1, "start") = 1 ∧
    (1, "start") ∈ broadcastDelivered fails2 hub3 "start" :=
  C7_broadcast_fanout hub3 "start" 1 fails2 (by decide) (by decide) (by decide)

theorem map_getD_range (l : List Bool) :
    (List.range l.length).map (fun i => l.getD i false) = l := by
  apply List.ext_getElem
  · simp
  · intro i h1 h2
    simp only [List.getElem_map, List.getElem_range, List.getD]
    rw [List.get?_eq_getElem?, List.getElem?_eq_getElem h2]
    rfl

theorem gFold_inv (evs : List GEvent) (s : GlobalState)
    (h : s.listeners = List.range s.closures.length) :
    (List.foldl gStep s evs).listeners
      = List.range (List.foldl gStep s evs).closures.length ∧
    (List.foldl gStep s evs).closures.length = s.closures.length + countOpens evs := by
  induction evs generalizing s with
  | nil => exact ⟨h, by simp [countOpens]⟩
  | cons a l ih =>
      cases a with
      | openConn =>
          have hs : (gStep s GEvent.openConn).listeners
              = List.range (gStep s GEvent.openConn).closures.length := by
            simp [gStep, List.range_succ, h]
          obtain ⟨h1, h2⟩ := ih (gStep s GEvent.openConn) hs
          refine ⟨h1, ?_⟩
          rw [List.foldl_cons, h2]
          have hlen : (gStep s GEvent.openConn).closures.length
              = s.closures.length + 1 := by
            simp [gStep]
          rw [hlen]
          have hco : countOpens (GEvent.openConn :: l) = countOpens l + 1 := by
            simp [countOpens, List.countP_cons]
          rw [hco]
          omega
      | frame i d =>
          have hs : (gStep s (GEvent.frame i d)).listeners
              = List.range (gStep s (GEvent.frame i d)).closures.length := by
            simp [gStep, List.length_set, h]
          obtain ⟨h1, h2⟩ := ih (gStep s (GEvent.frame i d)) hs
          refine ⟨h1, ?_⟩
          rw [List.foldl_cons, h2]
          have hco : countOpens (GEvent.frame i d :: l) = countOpens l := by
            simp [countOpens, List.countP_cons]
          rw [hco]
          simp [gStep, List.length_set]
      | focusTab t =>
          obtain ⟨h1, h2⟩ := ih s h
          refine ⟨h1, ?_⟩
          rw [List.foldl_cons]
          show (List.foldl gStep s l).closures.length = _
          rw [h2]
          simp [countOpens, List.countP_cons]
      | closeConn i =>
          obtain ⟨h1, h2⟩ := ih s h
          refine ⟨h1, ?_⟩
          rw [List.foldl_cons]
          show (List.foldl gStep s l).closures.length = _
          rw [h2]
          simp [countOpens, List.countP_cons]

/-- C10: after any global event sequence with k successful connection
opens, the agent has registered exactly k `onActivated` listeners (one per
open, none ever removed: they are the closure indices 0..k-1 in order),
and a single tab-focus event runs the dispatch once per listener, each run
reading the `recording` flag of its own connection's closure (run j yields
closure j's flag, not the latest connection's). -/
theorem C10_listener_accumulation (evs : List GEvent) :
    (gRun evs).listeners = List.range (countOpens evs) ∧
    (gRun evs).listeners.length = countOpens evs ∧
    focusRuns (gRun evs) = (gRun evs).closures := by
  obtain ⟨h1, h2⟩ := gFold_inv evs gInit rfl
  have hlen : (List.foldl gStep gInit evs).closures.length = countOpens evs := by
    rw [h2]
    exact Nat.zero_add _
  unfold gRun focusRuns
  refine ⟨?_, ?_, ?_⟩
  · rw [h1, hlen]
  · rw [h1, List.length_range, hlen]
  · rw [h1]
    exact map_getD_range _

end EchoDev
